import Mathlib

/-!
Verification of the chat-git checkpoint subsystem of this repository.

The file shallowly embeds the command actions of
packages/cli/src/ui/commands/chatGitCommand.ts: the tag ledger file, the
save / resume / delete subcommand actions and the tag enumeration used by
list and completion. Each action becomes a pure Lean function from an
explicit input record (command argument, ledger file state, answers of the
external checkpoint store, answers of the git subprocess, and the string
form of a thrown error) to an outcome record carrying the returned value,
the ledger file afterwards, and the ordered trace of effects issued against
the repository, the checkpoint store and the ledger file.
-/

/-- display role constants of the UI MessageType enum used by resume. -/
inductive DisplayType where
  | user
  | gemini
deriving DecidableEq

/-- messageType field of a message action return. -/
inductive MsgType where
  | info
  | error
deriving DecidableEq

/-- one part of a conversation turn; the text field may be absent. -/
structure TurnPart where
  text : Option String
deriving DecidableEq

/-- one turn of a conversation history; role and parts are optional fields
of the underlying Content type. -/
structure Turn where
  role : Option String
  parts : Option (List TurnPart)
deriving DecidableEq

/-- checkpoint record returned by logger.loadCheckpoint: a history and an
optional authentication type. -/
structure Checkpoint where
  history : List Turn
  authType : Option String
deriving DecidableEq

/-- entry of the tag ledger file: a tag and a commit hash. -/
structure LedgerEntry where
  tag : String
  commitHash : String
deriving DecidableEq

/-- state of the ledger file .gemini/chatGitTags.json as the embedded
commands observe it: absent (existsSync false, readFileSync raises ENOENT),
unreadable (readFileSync raises), malformed (readFileSync succeeds but
JSON.parse raises), or readable content. -/
inductive LedgerFile where
  | absent
  | unreadable
  | malformed
  | content (entries : List LedgerEntry)
deriving DecidableEq

/-- git operations issued through simple-git by the embedded commands. -/
inductive GitOp where
  | checkIsRepo
  | status
  | add
  | commit (message : String)
  | revparse
  | checkout (commitHash : String)
deriving DecidableEq

/-- effects a command issues, in order: git operations, checkpoint store
queries and mutations, and ledger file writes. -/
inductive Effect where
  | git (op : GitOp)
  | checkpointExistsQuery (tag : String)
  | loadCheckpointQuery (tag : String)
  | saveCheckpointCall (history : List Turn) (authType : Option String) (tag : String)
  | deleteCheckpointCall (tag : String)
  | ledgerWrite (entries : List LedgerEntry)
deriving DecidableEq

/-- display item pushed by the resume transform. -/
structure DisplayItem where
  type : DisplayType
  text : String
deriving DecidableEq

/-- value returned by a command action. -/
inductive CmdResult where
  | message (messageType : MsgType) (content : String)
  | confirmAction (raw : String)
  | loadHistory (display : List DisplayItem) (clientHistory : List Turn)
deriving DecidableEq

/-- outcome of the checkIsRepo call: true, false, or a raised error. -/
inductive RepoCheck where
  | isRepo
  | notRepo
  | checkFails
deriving DecidableEq

/-- outcome of an embedded command action: returned value, ledger file state
afterwards, and the ordered effect trace. -/
structure Outcome where
  result : CmdResult
  ledgerAfter : LedgerFile
  effects : List Effect
deriving DecidableEq

/-- Modelled from the spec: decodeTagName of the core package (not among the
given sources) maps a stored tag to its display form; comparisons always use
the stored form and the tests of the repository exercise only tags on which
decoding is the identity, so it is modelled as the identity. -/
def decodeTagName (tag : String) : String := tag

/-- Modelled from the spec: INITIAL_HISTORY_LENGTH of the core package (not
among the given sources) is the fixed length of the hidden initial context.
The tests of the repository pin it to 1: a one-turn history is reported as
no conversation, a two-turn history saves, and resume drops exactly one
leading turn of a three-turn history. -/
def INITIAL_HISTORY_LENGTH : Nat := 1

/-- single-quote character appearing in several user-facing messages. -/
def squote : String := String.singleton (Char.ofNat 39)

/-- path of the ledger file, path.join of .gemini and chatGitTags.json. -/
def chatGitLogFile : String := ".gemini/chatGitTags.json"

/-- String.prototype.trim, modelled structurally on the character list so
that it evaluates by kernel reduction: drop whitespace from both ends. -/
def jsTrim (s : String) : String :=
  String.mk (((s.data.dropWhile Char.isWhitespace).reverse.dropWhile Char.isWhitespace).reverse)

/-- JS truthiness of an optional string: absence and the empty string are
falsy. -/
def truthyStr : Option String → Bool
  | none => false
  | some s => s != ""

/-- Array.prototype.findIndex: index of the first match, -1 when none. -/
def jsFindIndex (p : α → Bool) (l : List α) : Int :=
  match l.findIdx? p with
  | some i => (i : Int)
  | none => -1

/-- Array.prototype.splice restricted to removal: a negative start counts
from the end and is clamped at zero, a nonnegative start is clamped at the
length. -/
def jsSpliceRemove (l : List α) (start : Int) (deleteCount : Nat) : List α :=
  let s : Nat := if start < 0 then ((l.length : Int) + start).toNat else min start.toNat l.length
  l.take s ++ l.drop (s + deleteCount)

/-- input of the delete subcommand action: raw argument, ledger file state,
whether writing the ledger file back raises, the answer of
logger.deleteCheckpoint, and the string form of a thrown error. -/
structure DeleteInput where
  args : String
  ledgerFile : LedgerFile
  ledgerWriteFails : Bool
  deleteCheckpointResult : Bool
  jsError : String
deriving DecidableEq

/-- delete subcommand action of chatGitCommand.ts (lines 383 to 446),
embedded line by line. The ledger lookup uses findIndex and guards with JS
negation of the index, so index 0 is treated as not found while index -1
(no match) passes the guard and reaches splice with a negative index. -/
def deleteCommand (inp : DeleteInput) : Outcome :=
  let tag := jsTrim inp.args
  if tag = "" then
    { result := .message .error "Missing tag. Usage: /chat-git delete <tag>",
      ledgerAfter := inp.ledgerFile, effects := [] }
  else
    match inp.ledgerFile with
    | .content entries =>
      let tagIndex := jsFindIndex (fun e => e.tag == tag) entries
      if tagIndex = 0 then
        { result := .message .error ("Tag not associated with git snapshot, " ++ tag),
          ledgerAfter := inp.ledgerFile, effects := [] }
      else
        let newEntries := jsSpliceRemove entries tagIndex 1
        if inp.ledgerWriteFails then
          { result := .message .error ("Reading or writing to " ++ chatGitLogFile ++ " failed, " ++ inp.jsError),
            ledgerAfter := inp.ledgerFile, effects := [] }
        else
          let effs := [Effect.ledgerWrite newEntries, Effect.deleteCheckpointCall tag]
          if inp.deleteCheckpointResult then
            { result := .message .info ("Conversation checkpoint " ++ squote ++ decodeTagName tag ++ squote ++ " has been deleted."),
              ledgerAfter := .content newEntries, effects := effs }
          else
            { result := .message .error ("Error: No checkpoint found with tag " ++ squote ++ decodeTagName tag ++ squote ++ "."),
              ledgerAfter := .content newEntries, effects := effs }
    | lf =>
      { result := .message .error ("Reading or writing to " ++ chatGitLogFile ++ " failed, " ++ inp.jsError),
        ledgerAfter := lf, effects := [] }

/-- effects that touch only the ledger file or the checkpoint store. -/
def isStoreEffect : Effect → Bool
  | .ledgerWrite _ => true
  | .deleteCheckpointCall _ => true
  | _ => false

/-- delete invocation of the C1 scenario: the single ledger entry carries a
different tag, mirroring the delete test of the repository. -/
def deleteInputUnknownTag : DeleteInput :=
  { args := "my-tag"
    ledgerFile := .content [{ tag := "other-tag", commitHash := "abc" }]
    ledgerWriteFails := false
    deleteCheckpointResult := true
    jsError := "" }

/-- C1: the claim requires delete of a tag absent from the ledger to return
the tag-not-associated error, leave the ledger unchanged and not call
deleteCheckpoint. On ledger content with the single entry other-tag,
deleting my-tag takes the index -1 past the falsy-index guard: the code
removes the last ledger entry, writes the ledger back, calls
deleteCheckpoint my-tag and reports success, contradicting the claim and
the delete test of the repository. -/
theorem delete_unknown_tag_mutates :
    (deleteCommand deleteInputUnknownTag).ledgerAfter = .content []
    ∧ (deleteCommand deleteInputUnknownTag).effects
      = [.ledgerWrite [], .deleteCheckpointCall "my-tag"]
    ∧ (deleteCommand deleteInputUnknownTag).result
      = .message .info ("Conversation checkpoint " ++ squote ++ "my-tag" ++ squote ++ " has been deleted.") := by
  decide

/-- delete invocation of the C2 scenario: the requested tag sits at ledger
position 0, the concrete example of the claim. -/
def deleteInputFirstEntry : DeleteInput :=
  { args := "a"
    ledgerFile := .content [{ tag := "a", commitHash := "c1" }, { tag := "b", commitHash := "c2" }]
    ledgerWriteFails := false
    deleteCheckpointResult := true
    jsError := "" }

/-- C2: the claim requires delete of a tag present in the ledger, including
at position 0, to remove exactly that entry and call deleteCheckpoint once.
On the ledger of the claim, entries a and b, deleting a finds index 0, the
falsy-index guard fires, and the code returns the tag-not-associated error,
leaves the ledger unchanged and never calls deleteCheckpoint, contradicting
the claim and the delete test of the repository. -/
theorem delete_first_entry_reported_missing :
    (deleteCommand deleteInputFirstEntry).result
      = .message .error "Tag not associated with git snapshot, a"
    ∧ (deleteCommand deleteInputFirstEntry).ledgerAfter
      = .content [{ tag := "a", commitHash := "c1" }, { tag := "b", commitHash := "c2" }]
    ∧ (deleteCommand deleteInputFirstEntry).effects = [] := by
  decide

/-- C10: the delete subcommand issues no git operation at all; every effect
it can issue is a ledger write or a checkpoint store deletion, so the
working tree and the commit history are untouched by delete. -/
theorem delete_touches_only_stores (inp : DeleteInput) :
    (deleteCommand inp).effects.all isStoreEffect = true := by
  obtain ⟨a, lf, wf, dr, je⟩ := inp
  cases lf <;> cases wf <;> cases dr <;> simp only [deleteCommand] <;>
    repeat (first | rfl | split)

/-- input of the save subcommand action: raw argument, confirmation flag,
raw invocation line, the answer of logger.checkpointExists for the tag, the
chat client history when a client is available, the current authentication
type, the answers of git (repository check, porcelain status, whether the
add-and-commit chain raises, the revparse answer), the ledger file state,
whether writing the ledger file raises, and the string form of a thrown
error. -/
structure SaveInput where
  args : String
  overwriteConfirmed : Bool
  invocationRaw : Option String
  checkpointExists : Bool
  chat : Option (List Turn)
  authType : Option String
  repoCheck : RepoCheck
  statusClean : Option Bool
  commitFails : Bool
  headHash : Option String
  ledgerFile : LedgerFile
  ledgerWriteFails : Bool
  jsError : String

/-- find-with-mutation idiom of saveCommand (lines 207 to 214): update the
commitHash of the first entry whose tag matches; none when no entry
matches. -/
def updateFirstTag : List LedgerEntry → String → String → Option (List LedgerEntry)
  | [], _, _ => none
  | e :: rest, tag, hash =>
    if e.tag = tag then some ({ e with commitHash := hash } :: rest)
    else (updateFirstTag rest tag hash).map (fun l => e :: l)

/-- ledger update of saveCommand: replace the commit hash in place when the
tag is present, append a fresh entry otherwise. -/
def upsertLedger (entries : List LedgerEntry) (tag hash : String) : List LedgerEntry :=
  match updateFirstTag entries tag hash with
  | some l => l
  | none => entries ++ [{ tag := tag, commitHash := hash }]

/-- save subcommand action of chatGitCommand.ts (lines 102 to 232), embedded
line by line: tag guard, repository check, overwrite handshake, chat client
guard, hidden-context length guard, conditional stage-and-commit plus
revparse, checkpoint store write, ledger upsert. -/
def saveCommand (inp : SaveInput) : Outcome :=
  let tag := jsTrim inp.args
  if tag = "" then
    { result := .message .error "Missing tag. Usage: /chat save <tag>",
      ledgerAfter := inp.ledgerFile, effects := [] }
  else
    match inp.repoCheck with
    | .notRepo =>
      { result := .message .error "Current working directory is not git repo. Unable to proceed with chat-git.",
        ledgerAfter := inp.ledgerFile, effects := [.git .checkIsRepo] }
    | .checkFails =>
      { result := .message .error "Current working directory is not git repo or checkIsRepo failed. Unable to proceed with chat-git.",
        ledgerAfter := inp.ledgerFile, effects := [.git .checkIsRepo] }
    | .isRepo =>
      if !inp.overwriteConfirmed && inp.checkpointExists then
        { result := .confirmAction (inp.invocationRaw.getD ("/chat-git save " ++ tag)),
          ledgerAfter := inp.ledgerFile,
          effects := [.git .checkIsRepo, .checkpointExistsQuery tag] }
      else
        let effs0 := if !inp.overwriteConfirmed
          then [Effect.git .checkIsRepo, Effect.checkpointExistsQuery tag]
          else [Effect.git .checkIsRepo]
        match inp.chat with
        | none =>
          { result := .message .error "No chat client available to save conversation.",
            ledgerAfter := inp.ledgerFile, effects := effs0 }
        | some history =>
          if history.length ≤ INITIAL_HISTORY_LENGTH then
            { result := .message .info "No conversation found to save.",
              ledgerAfter := inp.ledgerFile, effects := effs0 }
          else
            match inp.statusClean with
            | none =>
              { result := .message .error ("Failed git add or commit, " ++ inp.jsError),
                ledgerAfter := inp.ledgerFile, effects := effs0 ++ [.git .status] }
            | some clean =>
              if !clean && inp.commitFails then
                { result := .message .error ("Failed git add or commit, " ++ inp.jsError),
                  ledgerAfter := inp.ledgerFile,
                  effects := effs0 ++ [.git .status, .git .add, .git (.commit ("commit made with chat-git tag " ++ tag))] }
              else
                let gitEffs := if clean
                  then [Effect.git .status, Effect.git .revparse]
                  else [Effect.git .status, Effect.git .add, Effect.git (.commit ("commit made with chat-git tag " ++ tag)), Effect.git .revparse]
                match inp.headHash with
                | none =>
                  { result := .message .error ("Failed git add or commit, " ++ inp.jsError),
                    ledgerAfter := inp.ledgerFile, effects := effs0 ++ gitEffs }
                | some commitHash =>
                  let effs1 := effs0 ++ gitEffs ++ [Effect.saveCheckpointCall history inp.authType tag]
                  let successResult := CmdResult.message .info
                    ("Conversation checkpoint saved with tag: " ++ decodeTagName tag ++ " and git commit hash " ++ commitHash ++ ".")
                  let failResult := CmdResult.message .error
                    ("Reading or writing to " ++ chatGitLogFile ++ " failed " ++ inp.jsError)
                  match inp.ledgerFile with
                  | .absent =>
                    if inp.ledgerWriteFails then
                      { result := failResult, ledgerAfter := .absent, effects := effs1 }
                    else
                      { result := successResult,
                        ledgerAfter := .content [{ tag := tag, commitHash := commitHash }],
                        effects := effs1 ++ [.ledgerWrite [{ tag := tag, commitHash := commitHash }]] }
                  | .content entries =>
                    if inp.ledgerWriteFails then
                      { result := failResult, ledgerAfter := .content entries, effects := effs1 }
                    else
                      { result := successResult,
                        ledgerAfter := .content (upsertLedger entries tag commitHash),
                        effects := effs1 ++ [.ledgerWrite (upsertLedger entries tag commitHash)] }
                  | lf =>
                    { result := failResult, ledgerAfter := lf, effects := effs1 }

/-- input of the resume subcommand action: raw argument, the checkpoint
record returned by logger.loadCheckpoint, the active authentication type,
the ledger file state, the answers of git and the string form of a thrown
error. -/
structure ResumeInput where
  args : String
  checkpoint : Checkpoint
  currentAuthType : Option String
  ledgerFile : LedgerFile
  repoCheck : RepoCheck
  statusClean : Option Bool
  checkoutFails : Bool
  jsError : String

/-- rolemap of resumeCommand: user and model are the only mapped roles. -/
def rolemap : String → Option DisplayType
  | "user" => some .user
  | "model" => some .gemini
  | _ => none

/-- display role of a turn: an absent, empty or unmapped role falls back to
the gemini role, per the JS expression combining the role guard, the
rolemap lookup and the gemini default. -/
def displayRole (role : Option String) : DisplayType :=
  match role with
  | none => .gemini
  | some r => if r = "" then .gemini else (rolemap r).getD .gemini

/-- concatenated text of a turn: keep the parts with truthy text, take their
texts and join them; an absent parts list yields the empty string. -/
def turnText (t : Turn) : String :=
  match t.parts with
  | none => ""
  | some ps => String.join ((ps.filter (fun p => truthyStr p.text)).map (fun p => p.text.getD ""))

/-- display transform of resumeCommand (lines 347 to 368): drop the hidden
initial context, skip turns whose concatenated text is empty, and map each
remaining turn to its display role and text. -/
def displayOf (conversation : List Turn) : List DisplayItem :=
  (conversation.drop INITIAL_HISTORY_LENGTH).filterMap (fun item =>
    let text := turnText item
    if text = "" then none
    else some { type := displayRole item.role, text := text })

/-- resume subcommand action of chatGitCommand.ts (lines 234 to 381),
embedded line by line: tag guard, checkpoint load with empty-history guard,
ledger lookup, authentication guard, repository check, cleanliness check,
checkout, display transform. -/
def resumeCommand (inp : ResumeInput) : Outcome :=
  let tag := jsTrim inp.args
  if tag = "" then
    { result := .message .error "Missing tag. Usage: /chat-git resume <tag>",
      ledgerAfter := inp.ledgerFile, effects := [] }
  else
    let conversation := inp.checkpoint.history
    let effs0 := [Effect.loadCheckpointQuery tag]
    if conversation.length = 0 then
      { result := .message .info ("No saved checkpoint found with tag: " ++ decodeTagName tag ++ "."),
        ledgerAfter := inp.ledgerFile, effects := effs0 }
    else
      match inp.ledgerFile with
      | .content entries =>
        match entries.find? (fun e => e.tag == tag) with
        | none =>
          { result := .message .error ("No git commit associated with tag: " ++ decodeTagName tag ++ "."),
            ledgerAfter := inp.ledgerFile, effects := effs0 }
        | some entry =>
          if truthyStr inp.checkpoint.authType && truthyStr inp.currentAuthType
              && inp.checkpoint.authType != inp.currentAuthType then
            { result := .message .error ("Cannot resume chat. It was saved with a different authentication method ("
                ++ inp.checkpoint.authType.getD "" ++ ") than the current one (" ++ inp.currentAuthType.getD "" ++ ")."),
              ledgerAfter := inp.ledgerFile, effects := effs0 }
          else
            match inp.repoCheck with
            | .notRepo =>
              { result := .message .error "Current working directory is not git repo. Unable to proceed with chat-git.",
                ledgerAfter := inp.ledgerFile, effects := effs0 ++ [.git .checkIsRepo] }
            | .checkFails =>
              { result := .message .error "Current working directory is not git repo or checkIsRepo failed. Unable to proceed with chat-git.",
                ledgerAfter := inp.ledgerFile, effects := effs0 ++ [.git .checkIsRepo] }
            | .isRepo =>
              match inp.statusClean with
              | none =>
                { result := .message .error ("Failed checking git repo status, " ++ inp.jsError),
                  ledgerAfter := inp.ledgerFile, effects := effs0 ++ [.git .checkIsRepo, .git .status] }
              | some clean =>
                if !clean then
                  { result := .message .error "Git repo is not clean, unable to checkout.",
                    ledgerAfter := inp.ledgerFile, effects := effs0 ++ [.git .checkIsRepo, .git .status] }
                else
                  if inp.checkoutFails then
                    { result := .message .error ("Failed git checkout " ++ entry.commitHash ++ ", " ++ inp.jsError),
                      ledgerAfter := inp.ledgerFile,
                      effects := effs0 ++ [.git .checkIsRepo, .git .status, .git (.checkout entry.commitHash)] }
                  else
                    { result := .loadHistory (displayOf conversation) conversation,
                      ledgerAfter := inp.ledgerFile,
                      effects := effs0 ++ [.git .checkIsRepo, .git .status, .git (.checkout entry.commitHash)] }
      | lf =>
        { result := .message .error ("Error reading from chat-git log file " ++ chatGitLogFile ++ ", " ++ inp.jsError),
          ledgerAfter := lf, effects := effs0 }

/-- derived chat detail shown by list and completion: decoded tag name and
checkpoint file modification time. -/
structure ChatDetail where
  name : String
  mtime : String
deriving DecidableEq

/-- input of the tag enumeration: ledger file state, the project temp dir
of the storage config when available, and the per-tag stat answer (none
when fsPromises.stat raises for the checkpoint file of that tag). -/
structure ListInput where
  ledgerFile : LedgerFile
  geminiDir : Option String
  statMtime : String → Option String

/-- outcome of the enumeration: a list, or an exception propagating to the
caller. -/
inductive ListOutcome where
  | ok (chats : List ChatDetail)
  | raised
deriving DecidableEq

/-- stat loop of getSavedChatGitTags: build a chat detail per ledger entry;
none when the stat of some entry raises. -/
def statAll (statMtime : String → Option String) : List LedgerEntry → Option (List ChatDetail)
  | [] => some []
  | e :: rest =>
    match statMtime e.tag with
    | none => none
    | some m => (statAll statMtime rest).map (fun l => { name := decodeTagName e.tag, mtime := m } :: l)

/-- comparator of the sort in getSavedChatGitTags: ascending or descending
on the mtime string; localeCompare on ISO timestamps agrees with string
order. -/
def mtimeLE (desc : Bool) (a b : ChatDetail) : Bool :=
  if desc then decide (b.mtime ≤ a.mtime) else decide (a.mtime ≤ b.mtime)

/-- insertion step of the sort. -/
def insertSorted (le : α → α → Bool) (a : α) : List α → List α
  | [] => [a]
  | b :: rest => if le b a then b :: insertSorted le a rest else a :: b :: rest

/-- insertion sort used to model Array.prototype.sort with the mtime
comparator. -/
def sortByMtime (desc : Bool) (l : List ChatDetail) : List ChatDetail :=
  l.foldr (insertSorted (mtimeLE desc)) []

/-- getSavedChatGitTags of chatGitCommand.ts (lines 36 to 83). An absent
ledger file yields the empty list and a read failure is caught and yields
the empty list, but JSON.parse runs between the two try blocks, so a
malformed ledger file raises to the caller. A missing temp dir yields the
empty list; a stat failure on any entry is caught and yields the empty
list; otherwise the details are sorted by modification time. -/
def getSavedChatGitTags (inp : ListInput) (mtSortDesc : Bool) : ListOutcome :=
  match inp.ledgerFile with
  | .absent => .ok []
  | .unreadable => .ok []
  | .malformed => .raised
  | .content entries =>
    match inp.geminiDir with
    | none => .ok []
    | some _ =>
      match statAll inp.statMtime entries with
      | none => .ok []
      | some details => .ok (sortByMtime mtSortDesc details)

/-- effects that mutate the repository, the checkpoint store or the ledger
file, as opposed to read-only queries. -/
def isMutationEffect : Effect → Bool
  | .git .add => true
  | .git (.commit _) => true
  | .git (.checkout _) => true
  | .saveCheckpointCall _ _ _ => true
  | .deleteCheckpointCall _ => true
  | .ledgerWrite _ => true
  | _ => false

/-- effects that stage or commit to the repository. -/
def isCommitEffect : Effect → Bool
  | .git .add => true
  | .git (.commit _) => true
  | _ => false

/-- checkout effects. -/
def isCheckoutEffect : Effect → Bool
  | .git (.checkout _) => true
  | _ => false

/-- checkpoint store writes. -/
def isSaveCheckpointEffect : Effect → Bool
  | .saveCheckpointCall _ _ _ => true
  | _ => false

/-- whether a command returned an informational message. -/
def CmdResult.isInfoMessage : CmdResult → Bool
  | .message .info _ => true
  | _ => false

/-- resume invocation of the C3 counterexample: dirty working tree, but the
checkpoint store has no history for the tag. -/
def resumeInputDirtyMissing : ResumeInput :=
  { args := "T"
    checkpoint := { history := [], authType := none }
    currentAuthType := none
    ledgerFile := .content [{ tag := "T", commitHash := "h" }]
    repoCheck := .isRepo
    statusClean := some false
    checkoutFails := false
    jsError := "" }

/-- C3 counterexample: with a dirty working tree but an empty stored history
for the tag, resume returns the informational not-found message rather than
the dirty-tree error, because the checkpoint-existence guard runs before
the cleanliness check; the claim requires the dirty-tree error regardless
of checkpoint or ledger state. -/
theorem resume_dirty_missing_checkpoint_counterexample :
    (resumeCommand resumeInputDirtyMissing).result
      = .message .info "No saved checkpoint found with tag: T."
    ∧ (resumeCommand resumeInputDirtyMissing).result
      ≠ .message .error "Git repo is not clean, unable to checkout." := by
  decide

/-- C3 amended: when the stored history is nonempty, a ledger entry for the
tag exists, the authentication guard passes and the repository check
succeeds, a dirty tree makes resume fail with the specific dirty-tree
message; and a dirty tree never lets any resume perform a checkout, so
uncommitted work is never discarded. -/
theorem resume_dirty_tree_refusal (inp : ResumeInput) (entries : List LedgerEntry) (entry : LedgerEntry)
    (htag : jsTrim inp.args ≠ "")
    (hhist : inp.checkpoint.history ≠ [])
    (hledger : inp.ledgerFile = .content entries)
    (hfind : entries.find? (fun e => e.tag == jsTrim inp.args) = some entry)
    (hauth : (truthyStr inp.checkpoint.authType && truthyStr inp.currentAuthType
              && inp.checkpoint.authType != inp.currentAuthType) = false)
    (hrepo : inp.repoCheck = .isRepo)
    (hdirty : inp.statusClean = some false) :
    (resumeCommand inp).result = .message .error "Git repo is not clean, unable to checkout."
    ∧ ∀ inp2 : ResumeInput, inp2.statusClean = some false →
        (resumeCommand inp2).effects.all (fun e => !isCheckoutEffect e) = true := by
  constructor
  · have hlen : ¬(inp.checkpoint.history.length = 0) := by
      simpa [List.length_eq_zero] using hhist
    simp [resumeCommand, htag, hlen, hledger, hfind, hauth, hrepo, hdirty]
  · intro inp2 h2
    simp only [resumeCommand]
    rw [h2]
    repeat (first | rfl | split)

/-- resume invocation of the C3 witness: nonempty stored history, matching
ledger entry, compatible authentication, repository present, tree dirty. -/
def resumeInputDirtyFull : ResumeInput :=
  { args := "T"
    checkpoint := { history := [{ role := some "user", parts := some [{ text := some "hi" }] },
                                { role := some "model", parts := some [{ text := some "ok" }] }],
                    authType := some "oauth" }
    currentAuthType := some "oauth"
    ledgerFile := .content [{ tag := "T", commitHash := "h" }]
    repoCheck := .isRepo
    statusClean := some false
    checkoutFails := false
    jsError := "" }

/-- witness of the C3 amended theorem at a concrete dirty-tree input. -/
theorem resume_dirty_tree_refusal_witness :
    (resumeCommand resumeInputDirtyFull).result = .message .error "Git repo is not clean, unable to checkout." :=
  (resume_dirty_tree_refusal resumeInputDirtyFull
    [{ tag := "T", commitHash := "h" }] { tag := "T", commitHash := "h" }
    (by decide) (by decide) rfl (by decide) (by decide) rfl rfl).1

/-- resume invocation of the C4 counterexample: the stored history has
length 1, which is at most the hidden initial-context length, and every
other precondition of a successful resume holds. -/
def resumeInputShortHistory : ResumeInput :=
  { args := "t"
    checkpoint := { history := [{ role := some "user", parts := some [{ text := some "hi" }] }],
                    authType := none }
    currentAuthType := none
    ledgerFile := .content [{ tag := "t", commitHash := "h" }]
    repoCheck := .isRepo
    statusClean := some true
    checkoutFails := false
    jsError := "" }

/-- C4 counterexample: a checkpoint whose stored history has length 1, at
most the hidden initial-context length, is not reported as not found:
resume performs the checkout of the recorded commit and returns a
load-history result whose display part is empty, because resume guards
only against a strictly empty stored history. -/
theorem resume_short_history_counterexample :
    (1 : Nat) ≤ INITIAL_HISTORY_LENGTH
    ∧ (resumeCommand resumeInputShortHistory).result
      = .loadHistory [] [{ role := some "user", parts := some [{ text := some "hi" }] }]
    ∧ .git (.checkout "h") ∈ (resumeCommand resumeInputShortHistory).effects := by
  decide

/-- C4 amended: saving a history of length at most the hidden
initial-context length returns the informational nothing-to-save message,
leaves the ledger untouched and performs no mutation; on the resume side
the informational not-found result is returned exactly for an empty stored
history, so a nonempty stored history of length at most the threshold still
resumes instead of being reported not found. -/
theorem short_history_guard (inp : SaveInput) (history : List Turn)
    (htag : jsTrim inp.args ≠ "")
    (hrepo : inp.repoCheck = .isRepo)
    (hover : (!inp.overwriteConfirmed && inp.checkpointExists) = false)
    (hchat : inp.chat = some history)
    (hlen : history.length ≤ INITIAL_HISTORY_LENGTH) :
    (saveCommand inp).result = .message .info "No conversation found to save."
    ∧ (saveCommand inp).ledgerAfter = inp.ledgerFile
    ∧ (saveCommand inp).effects.all (fun e => !isMutationEffect e) = true
    ∧ (∀ rinp : ResumeInput, jsTrim rinp.args ≠ "" → rinp.checkpoint.history ≠ [] →
        (resumeCommand rinp).result.isInfoMessage = false)
    ∧ (∀ rinp : ResumeInput, jsTrim rinp.args ≠ "" → rinp.checkpoint.history = [] →
        (resumeCommand rinp).result
          = .message .info ("No saved checkpoint found with tag: " ++ decodeTagName (jsTrim rinp.args) ++ ".")) := by
  refine ⟨?_, ?_, ?_, ?_, ?_⟩
  · simp [saveCommand, htag, hrepo, hover, hchat, hlen]
  · simp [saveCommand, htag, hrepo, hover, hchat, hlen]
  · cases hoc : inp.overwriteConfirmed <;> cases hce : inp.checkpointExists <;>
      simp_all [saveCommand, isMutationEffect]
  · intro rinp h1 h2
    have h0 : ¬(rinp.checkpoint.history.length = 0) := by
      simpa [List.length_eq_zero] using h2
    simp only [resumeCommand]
    rw [if_neg h1, if_neg h0]
    repeat (first | rfl | split)
  · intro rinp h1 h2
    simp [resumeCommand, h1, h2]

/-- save invocation of the C4 witness: a one-turn history, tree state and
store answers otherwise unremarkable. -/
def saveInputShortHistory : SaveInput :=
  { args := "tag1"
    overwriteConfirmed := false
    invocationRaw := none
    checkpointExists := false
    chat := some [{ role := some "user", parts := some [{ text := some "context" }] }]
    authType := some "oauth"
    repoCheck := .isRepo
    statusClean := some true
    commitFails := false
    headHash := some "abc"
    ledgerFile := .content []
    ledgerWriteFails := false
    jsError := "" }

/-- witness of the C4 amended theorem at a concrete one-turn history. -/
theorem short_history_guard_witness :
    (saveCommand saveInputShortHistory).result = .message .info "No conversation found to save." :=
  (short_history_guard saveInputShortHistory
    [{ role := some "user", parts := some [{ text := some "context" }] }]
    (by decide) rfl rfl rfl (by decide)).1

/-- updateFirstTag misses exactly when no ledger entry carries the tag. -/
theorem updateFirstTag_eq_none_iff (l : List LedgerEntry) (t h : String) :
    updateFirstTag l t h = none ↔ t ∉ l.map LedgerEntry.tag := by
  induction l with
  | nil => simp [updateFirstTag]
  | cons e rest ih =>
    by_cases he : e.tag = t
    · simp [updateFirstTag, he]
    · simp [updateFirstTag, he, Ne.symm he, Option.map_eq_none', ih]

/-- tags are unchanged by updateFirstTag. -/
theorem updateFirstTag_map_tag (l : List LedgerEntry) (t h : String) (l2 : List LedgerEntry)
    (heq : updateFirstTag l t h = some l2) :
    l2.map LedgerEntry.tag = l.map LedgerEntry.tag := by
  induction l generalizing l2 with
  | nil => simp [updateFirstTag] at heq
  | cons e rest ih =>
    by_cases he : e.tag = t
    · simp only [updateFirstTag, if_pos he, Option.some.injEq] at heq
      subst heq
      simp
    · simp only [updateFirstTag, if_neg he, Option.map_eq_some'] at heq
      obtain ⟨l3, h3, hl2⟩ := heq
      subst hl2
      simp [ih l3 h3]

/-- a pointwise hash update is the identity when the tag is absent. -/
theorem map_update_id (rest : List LedgerEntry) (t h : String)
    (hnot : t ∉ rest.map LedgerEntry.tag) :
    rest.map (fun e => if e.tag = t then { tag := e.tag, commitHash := h } else e) = rest := by
  induction rest with
  | nil => rfl
  | cons e r ih =>
    simp only [List.map_cons, List.mem_cons, not_or] at hnot ⊢
    rw [if_neg (Ne.symm hnot.1), ih hnot.2]

/-- under unique tags, updateFirstTag is the pointwise in-place hash
update. -/
theorem updateFirstTag_nodup_shape (l : List LedgerEntry) (t h : String) (l2 : List LedgerEntry)
    (hnd : (l.map LedgerEntry.tag).Nodup)
    (heq : updateFirstTag l t h = some l2) :
    l2 = l.map (fun e => if e.tag = t then { tag := e.tag, commitHash := h } else e) := by
  induction l generalizing l2 with
  | nil => simp [updateFirstTag] at heq
  | cons e rest ih =>
    simp only [List.map_cons, List.nodup_cons] at hnd
    by_cases he : e.tag = t
    · simp only [updateFirstTag, if_pos he, Option.some.injEq] at heq
      subst heq
      have hnot : t ∉ rest.map LedgerEntry.tag := by
        rw [← he]
        exact hnd.1
      simp [if_pos he, map_update_id rest t h hnot]
    · simp only [updateFirstTag, if_neg he, Option.map_eq_some'] at heq
      obtain ⟨l3, h3, hl2⟩ := heq
      subst hl2
      simp [if_neg he, ih l3 hnd.2 h3]

/-- tags after upsert: unchanged when the tag is present, appended when it
is absent. -/
theorem upsertLedger_map_tag (l : List LedgerEntry) (t h : String) :
    (upsertLedger l t h).map LedgerEntry.tag
      = if t ∈ l.map LedgerEntry.tag then l.map LedgerEntry.tag
        else l.map LedgerEntry.tag ++ [t] := by
  unfold upsertLedger
  cases hu : updateFirstTag l t h with
  | none =>
    have hm := (updateFirstTag_eq_none_iff l t h).mp hu
    simp [hm]
  | some l2 =>
    have hm : t ∈ l.map LedgerEntry.tag := by
      by_contra hmem
      rw [(updateFirstTag_eq_none_iff l t h).mpr hmem] at hu
      exact Option.noConfusion hu
    simp [hm, updateFirstTag_map_tag l t h l2 hu]

/-- upsert preserves uniqueness of tags. -/
theorem upsertLedger_nodup (l : List LedgerEntry) (t h : String)
    (hnd : (l.map LedgerEntry.tag).Nodup) :
    ((upsertLedger l t h).map LedgerEntry.tag).Nodup := by
  rw [upsertLedger_map_tag]
  by_cases hm : t ∈ l.map LedgerEntry.tag
  · simp [hm, hnd]
  · simp [hm, List.nodup_append, hnd, List.disjoint_singleton]

/-- length after upsert: unchanged when the tag is present, one more when it
is absent. -/
theorem upsertLedger_length (l : List LedgerEntry) (t h : String) :
    (upsertLedger l t h).length
      = if t ∈ l.map LedgerEntry.tag then l.length else l.length + 1 := by
  have hmap := upsertLedger_map_tag l t h
  have hlen : (upsertLedger l t h).length = ((upsertLedger l t h).map LedgerEntry.tag).length :=
    (List.length_map _ _).symm
  rw [hlen, hmap]
  by_cases hm : t ∈ l.map LedgerEntry.tag <;> simp [hm]

/-- the upserted tag is present afterwards. -/
theorem upsertLedger_mem_tag (l : List LedgerEntry) (t h : String) :
    t ∈ (upsertLedger l t h).map LedgerEntry.tag := by
  rw [upsertLedger_map_tag]
  by_cases hm : t ∈ l.map LedgerEntry.tag <;> simp [hm]

/-- when the tag is absent, upsert appends exactly one fresh entry. -/
theorem upsertLedger_append (l : List LedgerEntry) (t h : String)
    (hm : t ∉ l.map LedgerEntry.tag) :
    upsertLedger l t h = l ++ [{ tag := t, commitHash := h }] := by
  unfold upsertLedger
  rw [(updateFirstTag_eq_none_iff l t h).mpr hm]

/-- upsert walks past an entry with a different tag. -/
theorem upsertLedger_cons_ne (e : LedgerEntry) (rest : List LedgerEntry) (t h : String)
    (he : ¬e.tag = t) :
    upsertLedger (e :: rest) t h = e :: upsertLedger rest t h := by
  unfold upsertLedger
  simp only [updateFirstTag, if_neg he]
  cases hu : updateFirstTag rest t h <;> simp [hu]

/-- after upsert, looking the tag up finds the fresh commit hash. -/
theorem upsertLedger_find (l : List LedgerEntry) (t h : String) :
    (upsertLedger l t h).find? (fun e => e.tag == t) = some { tag := t, commitHash := h } := by
  induction l with
  | nil => simp [upsertLedger, updateFirstTag, List.find?]
  | cons e rest ih =>
    by_cases he : e.tag = t
    · have hshape : upsertLedger (e :: rest) t h = { tag := e.tag, commitHash := h } :: rest := by
        unfold upsertLedger
        simp [updateFirstTag, if_pos he]
      rw [hshape]
      simp [List.find?, he]
    · rw [upsertLedger_cons_ne e rest t h he]
      have hbeq : (e.tag == t) = false := by simp [he]
      simp [List.find?, hbeq, ih]

/-- when the tag is present and tags are unique, upsert is the pointwise
in-place hash update. -/
theorem upsertLedger_present_shape (l : List LedgerEntry) (t h : String)
    (hnd : (l.map LedgerEntry.tag).Nodup) (hm : t ∈ l.map LedgerEntry.tag) :
    upsertLedger l t h = l.map (fun e => if e.tag = t then { tag := e.tag, commitHash := h } else e) := by
  unfold upsertLedger
  cases hu : updateFirstTag l t h with
  | none => exact absurd hm ((updateFirstTag_eq_none_iff l t h).mp hu)
  | some l2 => exact updateFirstTag_nodup_shape l t h l2 hnd hu

/-- the success path of saveCommand: under a passing repository check, a
confirmed or fresh tag, a long-enough history, a working status call (and
a working stage-and-commit when the tree is dirty), a revparse answer, a
readable ledger and a working ledger write, save reports success with the
commit hash, stores the checkpoint record, reads the head and upserts the
ledger. -/
theorem saveCommand_success (inp : SaveInput) (history : List Turn)
    (entries : List LedgerEntry) (hash : String)
    (htag : jsTrim inp.args ≠ "")
    (hrepo : inp.repoCheck = .isRepo)
    (hover : (!inp.overwriteConfirmed && inp.checkpointExists) = false)
    (hchat : inp.chat = some history)
    (hlen : INITIAL_HISTORY_LENGTH < history.length)
    (hclean : inp.statusClean = some true ∨ (inp.statusClean = some false ∧ inp.commitFails = false))
    (hhash : inp.headHash = some hash)
    (hledger : inp.ledgerFile = .content entries)
    (hwrite : inp.ledgerWriteFails = false) :
    (saveCommand inp).result = .message .info
      ("Conversation checkpoint saved with tag: " ++ decodeTagName (jsTrim inp.args)
        ++ " and git commit hash " ++ hash ++ ".")
    ∧ (saveCommand inp).ledgerAfter = .content (upsertLedger entries (jsTrim inp.args) hash)
    ∧ .saveCheckpointCall history inp.authType (jsTrim inp.args) ∈ (saveCommand inp).effects
    ∧ .git .revparse ∈ (saveCommand inp).effects
    ∧ .ledgerWrite (upsertLedger entries (jsTrim inp.args) hash) ∈ (saveCommand inp).effects := by
  have hnle : ¬(history.length ≤ INITIAL_HISTORY_LENGTH) := Nat.not_le.mpr hlen
  rcases hclean with hc | ⟨hc, hcf⟩
  · refine ⟨?_, ?_, ?_, ?_, ?_⟩ <;>
      simp [saveCommand, htag, hrepo, hover, hchat, hnle, hc, hhash, hledger, hwrite]
  · refine ⟨?_, ?_, ?_, ?_, ?_⟩ <;>
      simp [saveCommand, htag, hrepo, hover, hchat, hnle, hc, hcf, hhash, hledger, hwrite]

/-- C5: a successful save upserts the ledger: with unique tags beforehand
tags stay unique; a present tag keeps the ledger length and updates the
commit hash of its entry in place; an absent tag appends exactly one fresh
entry; and saving the same tag twice grows the ledger by at most one
entry. -/
theorem save_ledger_upsert_invariant (inp : SaveInput) (history : List Turn)
    (entries : List LedgerEntry) (hash hash2 : String)
    (htag : jsTrim inp.args ≠ "")
    (hrepo : inp.repoCheck = .isRepo)
    (hover : (!inp.overwriteConfirmed && inp.checkpointExists) = false)
    (hchat : inp.chat = some history)
    (hlen : INITIAL_HISTORY_LENGTH < history.length)
    (hclean : inp.statusClean = some true ∨ (inp.statusClean = some false ∧ inp.commitFails = false))
    (hhash : inp.headHash = some hash)
    (hledger : inp.ledgerFile = .content entries)
    (hwrite : inp.ledgerWriteFails = false)
    (hnd : (entries.map LedgerEntry.tag).Nodup) :
    (saveCommand inp).ledgerAfter = .content (upsertLedger entries (jsTrim inp.args) hash)
    ∧ ((upsertLedger entries (jsTrim inp.args) hash).map LedgerEntry.tag).Nodup
    ∧ (jsTrim inp.args ∈ entries.map LedgerEntry.tag →
        upsertLedger entries (jsTrim inp.args) hash
          = entries.map (fun e => if e.tag = jsTrim inp.args then { tag := e.tag, commitHash := hash } else e)
        ∧ (upsertLedger entries (jsTrim inp.args) hash).length = entries.length)
    ∧ (jsTrim inp.args ∉ entries.map LedgerEntry.tag →
        upsertLedger entries (jsTrim inp.args) hash
          = entries ++ [{ tag := jsTrim inp.args, commitHash := hash }])
    ∧ (upsertLedger (upsertLedger entries (jsTrim inp.args) hash) (jsTrim inp.args) hash2).length
        ≤ entries.length + 1 := by
  refine ⟨(saveCommand_success inp history entries hash htag hrepo hover hchat hlen hclean hhash
      hledger hwrite).2.1,
    upsertLedger_nodup entries (jsTrim inp.args) hash hnd, ?_, ?_, ?_⟩
  · intro hm
    refine ⟨upsertLedger_present_shape entries (jsTrim inp.args) hash hnd hm, ?_⟩
    rw [upsertLedger_length, if_pos hm]
  · intro hm
    exact upsertLedger_append entries (jsTrim inp.args) hash hm
  · rw [upsertLedger_length, if_pos (upsertLedger_mem_tag entries (jsTrim inp.args) hash),
      upsertLedger_length]
    split <;> omega

/-- save invocation of the C5 witness: a two-turn history saved under a tag
already present in the ledger. -/
def saveInputReusedTag : SaveInput :=
  { args := "tg"
    overwriteConfirmed := true
    invocationRaw := none
    checkpointExists := true
    chat := some [{ role := some "user", parts := some [{ text := some "context" }] },
                  { role := some "user", parts := some [{ text := some "hello" }] }]
    authType := some "oauth"
    repoCheck := .isRepo
    statusClean := some true
    commitFails := false
    headHash := some "newhash"
    ledgerFile := .content [{ tag := "tg", commitHash := "oldhash" }]
    ledgerWriteFails := false
    jsError := "" }

/-- witness of the C5 theorem at a concrete reused tag. -/
theorem save_ledger_upsert_invariant_witness :
    (saveCommand saveInputReusedTag).ledgerAfter
      = .content (upsertLedger [{ tag := "tg", commitHash := "oldhash" }] (jsTrim "tg") "newhash") :=
  (save_ledger_upsert_invariant saveInputReusedTag
    [{ role := some "user", parts := some [{ text := some "context" }] },
     { role := some "user", parts := some [{ text := some "hello" }] }]
    [{ tag := "tg", commitHash := "oldhash" }] "newhash" "h2"
    (by decide) rfl rfl rfl (by decide) (Or.inl rfl) rfl rfl rfl (by decide)).1

/-- C6: round trip. A successful save of history H under tag T stores the
checkpoint record with exactly H and the active auth type, and records the
head commit hash in the ledger; a resume of T that is handed back that
stored record and the ledger written by save, under the same auth type, a
clean tree and a working checkout, returns the load-history result whose
display part is the transform of the turns of H after the hidden prefix
(roles mapped with model as default, part texts concatenated, empty turns
dropped) and whose raw part is H itself. -/
theorem save_resume_round_trip (sinp : SaveInput) (history : List Turn)
    (entries : List LedgerEntry) (hash : String) (rinp : ResumeInput)
    (htag : jsTrim sinp.args ≠ "")
    (hrepo : sinp.repoCheck = .isRepo)
    (hover : (!sinp.overwriteConfirmed && sinp.checkpointExists) = false)
    (hchat : sinp.chat = some history)
    (hlen : INITIAL_HISTORY_LENGTH < history.length)
    (hclean : sinp.statusClean = some true ∨ (sinp.statusClean = some false ∧ sinp.commitFails = false))
    (hhash : sinp.headHash = some hash)
    (hledger : sinp.ledgerFile = .content entries)
    (hwrite : sinp.ledgerWriteFails = false)
    (hrargs : rinp.args = sinp.args)
    (hrcp : rinp.checkpoint = { history := history, authType := sinp.authType })
    (hrledger : rinp.ledgerFile = (saveCommand sinp).ledgerAfter)
    (hrauth : rinp.currentAuthType = sinp.authType)
    (hrrepo : rinp.repoCheck = .isRepo)
    (hrclean : rinp.statusClean = some true)
    (hrco : rinp.checkoutFails = false) :
    .saveCheckpointCall history sinp.authType (jsTrim sinp.args) ∈ (saveCommand sinp).effects
    ∧ (resumeCommand rinp).result
      = .loadHistory (displayOf history) history
    ∧ displayOf history
      = (history.drop INITIAL_HISTORY_LENGTH).filterMap (fun item =>
          if turnText item = "" then none
          else some { type := displayRole item.role, text := turnText item }) := by
  have hs := saveCommand_success sinp history entries hash htag hrepo hover hchat hlen hclean
    hhash hledger hwrite
  refine ⟨hs.2.2.1, ?_, rfl⟩
  have hrl : rinp.ledgerFile = .content (upsertLedger entries (jsTrim sinp.args) hash) := by
    rw [hrledger, hs.2.1]
  have hhist : ¬(rinp.checkpoint.history.length = 0) := by
    rw [hrcp]
    simp only []
    omega
  have hfind : (upsertLedger entries (jsTrim sinp.args) hash).find?
      (fun e => e.tag == jsTrim rinp.args) = some { tag := jsTrim sinp.args, commitHash := hash } := by
    rw [hrargs]
    exact upsertLedger_find entries (jsTrim sinp.args) hash
  have hauth : (truthyStr rinp.checkpoint.authType && truthyStr rinp.currentAuthType
      && rinp.checkpoint.authType != rinp.currentAuthType) = false := by
    rw [hrcp, hrauth]
    simp
  have hrtag : jsTrim rinp.args ≠ "" := by
    rw [hrargs]
    exact htag
  have hne : history ≠ [] := by
    intro he
    rw [he] at hlen
    simp [INITIAL_HISTORY_LENGTH] at hlen
  simp [resumeCommand, hrtag, hhist, hrl, hfind, hauth, hrrepo, hrclean, hrco, hrcp, hne, hrauth]

/-- two-turn history of the round-trip witness. -/
def historyRoundTrip : List Turn :=
  [{ role := some "user", parts := some [{ text := some "context" }] },
   { role := some "model", parts := some [{ text := some "hello " }, { text := some "world" }] }]

/-- save invocation of the round-trip witness. -/
def saveInputRoundTrip : SaveInput :=
  { args := "rt"
    overwriteConfirmed := false
    invocationRaw := none
    checkpointExists := false
    chat := some historyRoundTrip
    authType := some "oauth"
    repoCheck := .isRepo
    statusClean := some false
    commitFails := false
    headHash := some "h1"
    ledgerFile := .content []
    ledgerWriteFails := false
    jsError := "" }

/-- resume invocation of the round-trip witness, fed the checkpoint record
and ledger produced by the save invocation. -/
def resumeInputRoundTrip : ResumeInput :=
  { args := "rt"
    checkpoint := { history := historyRoundTrip, authType := some "oauth" }
    currentAuthType := some "oauth"
    ledgerFile := .content [{ tag := "rt", commitHash := "h1" }]
    repoCheck := .isRepo
    statusClean := some true
    checkoutFails := false
    jsError := "" }

/-- witness of the C6 round-trip theorem at a concrete two-turn history. -/
theorem save_resume_round_trip_witness :
    (resumeCommand resumeInputRoundTrip).result
      = .loadHistory (displayOf historyRoundTrip) historyRoundTrip :=
  (save_resume_round_trip saveInputRoundTrip historyRoundTrip [] "h1" resumeInputRoundTrip
    (by decide) rfl rfl rfl (by decide) (Or.inr ⟨rfl, rfl⟩) rfl rfl rfl rfl rfl
    (by decide) rfl rfl rfl rfl).2.1

/-- C7: whenever the status call reports a clean tree, save issues no stage
and no commit operation; and on the otherwise successful path it still
reads the head commit hash through revparse, reports it in the success
message and records it in the upserted ledger entry for the tag. -/
theorem save_clean_tree_records_head (inp : SaveInput) (history : List Turn)
    (entries : List LedgerEntry) (hash : String)
    (htag : jsTrim inp.args ≠ "")
    (hrepo : inp.repoCheck = .isRepo)
    (hover : (!inp.overwriteConfirmed && inp.checkpointExists) = false)
    (hchat : inp.chat = some history)
    (hlen : INITIAL_HISTORY_LENGTH < history.length)
    (hclean : inp.statusClean = some true)
    (hhash : inp.headHash = some hash)
    (hledger : inp.ledgerFile = .content entries)
    (hwrite : inp.ledgerWriteFails = false) :
    (∀ inp2 : SaveInput, inp2.statusClean = some true →
        (saveCommand inp2).effects.all (fun e => !isCommitEffect e) = true)
    ∧ .git .revparse ∈ (saveCommand inp).effects
    ∧ (saveCommand inp).result = .message .info
        ("Conversation checkpoint saved with tag: " ++ decodeTagName (jsTrim inp.args)
          ++ " and git commit hash " ++ hash ++ ".")
    ∧ (saveCommand inp).ledgerAfter = .content (upsertLedger entries (jsTrim inp.args) hash)
    ∧ (upsertLedger entries (jsTrim inp.args) hash).find? (fun e => e.tag == jsTrim inp.args)
        = some { tag := jsTrim inp.args, commitHash := hash } := by
  have hs := saveCommand_success inp history entries hash htag hrepo hover hchat hlen
    (Or.inl hclean) hhash hledger hwrite
  refine ⟨?_, hs.2.2.2.1, hs.1, hs.2.1, upsertLedger_find entries (jsTrim inp.args) hash⟩
  intro inp2 h2
  simp only [saveCommand, h2]
  repeat (first | rfl | split)
  all_goals (
    rcases hh2 : inp2.headHash with _ | ch2 <;>
      rcases lf2 : inp2.ledgerFile with _ | _ | _ | es2 <;>
      rcases wf2 : inp2.ledgerWriteFails <;>
      rcases oc2 : inp2.overwriteConfirmed <;>
      simp_all [isCommitEffect])

/-- save invocation of the C7 witness: clean tree, fresh tag, two-turn
history. -/
def saveInputCleanTree : SaveInput :=
  { args := "ct"
    overwriteConfirmed := false
    invocationRaw := none
    checkpointExists := false
    chat := some [{ role := some "user", parts := some [{ text := some "context" }] },
                  { role := some "user", parts := some [{ text := some "hi" }] }]
    authType := none
    repoCheck := .isRepo
    statusClean := some true
    commitFails := false
    headHash := some "headhash"
    ledgerFile := .content []
    ledgerWriteFails := false
    jsError := "" }

/-- witness of the C7 theorem at a concrete clean-tree save. -/
theorem save_clean_tree_records_head_witness :
    (saveCommand saveInputCleanTree).result = .message .info
      ("Conversation checkpoint saved with tag: " ++ decodeTagName (jsTrim "ct")
        ++ " and git commit hash " ++ "headhash" ++ ".") :=
  (save_clean_tree_records_head saveInputCleanTree
    [{ role := some "user", parts := some [{ text := some "context" }] },
     { role := some "user", parts := some [{ text := some "hi" }] }]
    [] "headhash"
    (by decide) rfl rfl rfl (by decide) rfl rfl rfl rfl).2.2.1

/-- C8: with overwrite not confirmed and an existing checkpoint under the
tag, save returns the confirmation request carrying the raw invocation
(or its reconstruction) and mutates nothing: ledger unchanged, no git
mutation, no checkpoint store write; moreover no save invocation in that
state ever writes the checkpoint store, so an existing checkpoint is never
overwritten without confirmation. -/
theorem save_overwrite_requires_confirmation (inp : SaveInput)
    (htag : jsTrim inp.args ≠ "")
    (hrepo : inp.repoCheck = .isRepo)
    (hover : inp.overwriteConfirmed = false)
    (hex : inp.checkpointExists = true) :
    (saveCommand inp).result
      = .confirmAction (inp.invocationRaw.getD ("/chat-git save " ++ jsTrim inp.args))
    ∧ (saveCommand inp).ledgerAfter = inp.ledgerFile
    ∧ (saveCommand inp).effects.all (fun e => !isMutationEffect e) = true
    ∧ ∀ inp2 : SaveInput, inp2.overwriteConfirmed = false → inp2.checkpointExists = true →
        (saveCommand inp2).effects.all (fun e => !isSaveCheckpointEffect e) = true := by
  refine ⟨?_, ?_, ?_, ?_⟩
  · simp [saveCommand, htag, hrepo, hover, hex]
  · simp [saveCommand, htag, hrepo, hover, hex]
  · simp [saveCommand, htag, hrepo, hover, hex, isMutationEffect]
  · intro inp2 h1 h2
    simp only [saveCommand]
    rw [h1, h2]
    repeat (first | rfl | split)

/-- save invocation of the C8 witness: existing checkpoint, no confirmation
yet, raw invocation recorded. -/
def saveInputNeedsConfirmation : SaveInput :=
  { args := "dup"
    overwriteConfirmed := false
    invocationRaw := some "/chat-git save dup"
    checkpointExists := true
    chat := some []
    authType := none
    repoCheck := .isRepo
    statusClean := some true
    commitFails := false
    headHash := some "x"
    ledgerFile := .content [{ tag := "dup", commitHash := "old" }]
    ledgerWriteFails := false
    jsError := "" }

/-- witness of the C8 theorem at a concrete unconfirmed duplicate save. -/
theorem save_overwrite_requires_confirmation_witness :
    (saveCommand saveInputNeedsConfirmation).result
      = .confirmAction ((some "/chat-git save dup").getD ("/chat-git save " ++ jsTrim "dup")) :=
  (save_overwrite_requires_confirmation saveInputNeedsConfirmation
    (by decide) rfl rfl rfl).1

/-- C9 counterexample: a malformed ledger file does not degrade to the
empty list: JSON.parse runs between the two try blocks of
getSavedChatGitTags, so the parse error propagates to the caller instead
of an empty result. -/
theorem enumeration_malformed_ledger_raises :
    getSavedChatGitTags { ledgerFile := .malformed, geminiDir := some "dir", statMtime := fun _ => some "m" } false
      = .raised
    ∧ ListOutcome.raised ≠ .ok [] := by
  exact ⟨rfl, by decide⟩

/-- C9 amended: every enumeration failure except a malformed ledger file
degrades to the empty list: an absent or unreadable ledger file, a missing
project temp dir, and a stat failure on the checkpoint file of any ledger
entry all yield the empty list, for the ascending list order and the
descending completion order alike; a malformed ledger file instead raises
to the caller. -/
theorem enumeration_failures_degrade (inp : ListInput) (desc : Bool) :
    (inp.ledgerFile = .absent ∨ inp.ledgerFile = .unreadable →
      getSavedChatGitTags inp desc = .ok [])
    ∧ (∀ entries, inp.ledgerFile = .content entries →
        inp.geminiDir = none ∨ statAll inp.statMtime entries = none →
        getSavedChatGitTags inp desc = .ok [])
    ∧ (inp.ledgerFile = .malformed → getSavedChatGitTags inp desc = .raised) := by
  refine ⟨?_, ?_, ?_⟩
  · rintro (h | h) <;> simp [getSavedChatGitTags, h]
  · rintro entries h (hd | hs)
    · simp [getSavedChatGitTags, h, hd]
    · cases hg : inp.geminiDir <;> simp [getSavedChatGitTags, h, hs, hg]
  · intro h
    simp [getSavedChatGitTags, h]

/-- witness of the C9 amended theorem at a concrete unreadable ledger. -/
theorem enumeration_failures_degrade_witness :
    getSavedChatGitTags { ledgerFile := .unreadable, geminiDir := some "dir", statMtime := fun _ => none } true
      = .ok [] :=
  (enumeration_failures_degrade
    { ledgerFile := .unreadable, geminiDir := some "dir", statMtime := fun _ => none } true).1
    (Or.inr rfl)
